import Mathlib

/-!
# email-autodiscover: the two autodiscovery handlers and the Thunderbird renderer

A shallow embedding of `cmd/autodiscover/main.go` and `template/thunderbird.go`.

Go strings are modelled as Lean `String`s (sequences of Unicode code points), which covers
every valid UTF-8 Go string. Offsets are counted in characters; the separators and template
delimiters the program uses are ASCII, so slicing at them is the same in both views.
-/

set_option autoImplicit false

namespace strings

/-- Go `len(s)`: the number of bytes of the UTF-8 encoding. -/
def len (s : List Char) : Nat := (String.mk s).utf8ByteSize

/-- Go `strings.Index(s, substr)`: the index of the first instance of `substr` in `s`,
or `-1` when `substr` does not occur. -/
def Index : List Char → List Char → Int
  | [], substr => if substr = [] then 0 else -1
  | c :: s, substr =>
    if substr.isPrefixOf (c :: s) then 0
    else
      let r := Index s substr
      if r < 0 then -1 else r + 1

/-- The loop of `strings.Count` for a non-empty `substr`: find, count, skip past the match.
The first argument bounds the number of iterations (each one consumes at least one
character of `s`). -/
def countLoop (substr : List Char) : Nat → List Char → Nat → Nat
  | 0, _, n => n
  | fuel + 1, s, n =>
    let i := Index s substr
    if i = -1 then n
    else countLoop substr fuel (s.drop (i.toNat + substr.length)) (n + 1)

/-- Go `strings.Count(s, substr)`: the number of non-overlapping instances of `substr`;
for the empty `substr` one more than the number of code points; a one-byte `substr` takes
the byte-counting path. -/
def Count (s substr : List Char) : Int :=
  match substr with
  | [] => (s.length : Int) + 1
  | [c] => if c.utf8Size = 1 then (s.count c : Int) else (countLoop [c] (s.length + 1) s 0 : Int)
  | _ => (countLoop substr (s.length + 1) s 0 : Int)

/-- The loop of `explode`: one code point per slot, the remainder in the last slot. -/
def explodeLoop : Nat → List Char → List (List Char)
  | 0, s => [s]
  | k + 1, [] => [] :: explodeLoop k []
  | k + 1, c :: s => [c] :: explodeLoop k s

/-- Go `strings.explode(s, n)`: split `s` into at most `n` code-point strings. -/
def explode (s : List Char) (n : Int) : List (List Char) :=
  let l : Int := s.length
  let n := if n < 0 ∨ n > l then l else n
  if n > 0 then explodeLoop (n.toNat - 1) s else []

/-- The loop of `genSplit`: at most `k` cuts, then the remainder as the last element. -/
def genSplitLoop (sep : List Char) (sepSave : Nat) : Nat → List Char → List (List Char)
  | 0, s => [s]
  | k + 1, s =>
    let m := Index s sep
    if m < 0 then [s]
    else s.take (m.toNat + sepSave) :: genSplitLoop sep sepSave k (s.drop (m.toNat + sep.length))

/-- Go `strings.genSplit(s, sep, sepSave, n)`. -/
def genSplit (s sep : List Char) (sepSave : Nat) (n : Int) : List (List Char) :=
  if n = 0 then []
  else if sep = [] then explode s n
  else
    let n := if n < 0 then Count s sep + 1 else n
    let n := if n > (len s : Int) + 1 then (len s : Int) + 1 else n
    genSplitLoop sep sepSave (n.toNat - 1) s

/-- Go `strings.Split(s, sep)`, which is `genSplit(s, sep, 0, -1)`. -/
def Split (s sep : String) : List String :=
  (genSplit s.data sep.data 0 (-1)).map String.mk

end strings

namespace template

/-- The `Args` struct of `template/args.go`. -/
structure Args where
  Domain : String
  ImapHost : String
  SmtpHost : String
  EmailLocalPart : String
  deriving DecidableEq, Repr

end template

/-! ## The fragment of Go's `text/template` that the Thunderbird template uses

Text, and actions of the form `{{.Field}}` (field chains, blanks inside the action). Every
other construct of the template language is reported as an error of the model. -/

namespace texttemplate

/-- The lexer's items (`parse/lex.go`), for the fragment. -/
inductive item where
  | text (val : List Char)
  | leftDelim
  | rightDelim
  | field (name : List Char)
  | space
  deriving DecidableEq, Repr

/-- Go `isSpace` of the lexer. -/
def isSpace (c : Char) : Bool := c = ' ' || c = '\t' || c = '\r' || c = '\n'

/-- Go `isAlphaNumeric` of the lexer, on ASCII. -/
def isAlphaNumeric (c : Char) : Bool := c = '_' || c.isAlphanum

/-- The states of the lexer. -/
inductive lexState where
  /-- `lexText`, with the pending text in reverse. -/
  | text (acc : List Char)
  /-- `lexInsideAction`. -/
  | insideAction
  /-- `lexField`, after the dot, with the name read so far in reverse. -/
  | field (acc : List Char)
  deriving DecidableEq, Repr

/-- Put an item in front of the items of the rest of the input. -/
def emit (i : item) (r : Except String (List item)) : Except String (List item) :=
  r.map (fun l => i :: l)

/-- Emit the pending text when there is some (`lexText` emits no empty text item). -/
def emitText (acc : List Char) (r : Except String (List item)) : Except String (List item) :=
  if acc = [] then r else emit (item.text acc.reverse) r

/-- The lexer: `lexText`, `lexLeftDelim`, `lexInsideAction`, `lexField`, `lexRightDelim`. -/
def lex : lexState → List Char → Except String (List item)
  | .text acc, [] => emitText acc (.ok [])
  | .text acc, '{' :: '{' :: rest => emitText acc (emit .leftDelim (lex .insideAction rest))
  | .text acc, c :: rest => lex (.text (c :: acc)) rest
  | .insideAction, [] => .error "unclosed action"
  | .insideAction, '}' :: '}' :: rest => emit .rightDelim (lex (.text []) rest)
  | .insideAction, c :: rest =>
    if isSpace c then emit .space (lex .insideAction rest)
    else if c = '.' then lex (.field []) rest
    else .error "construct outside the modelled fragment"
  | .field _, [] => .error "unclosed action"
  | .field acc, '}' :: '}' :: rest =>
    if acc = [] then .error "construct outside the modelled fragment"
    else emit (.field acc.reverse) (emit .rightDelim (lex (.text []) rest))
  | .field acc, c :: rest =>
    if isAlphaNumeric c then
      if acc = [] ∧ c.isDigit then .error "construct outside the modelled fragment"
      else lex (.field (c :: acc)) rest
    else if acc = [] then .error "construct outside the modelled fragment"
    else if isSpace c then emit (.field acc.reverse) (emit .space (lex .insideAction rest))
    else if c = '.' then emit (.field acc.reverse) (lex (.field []) rest)
    else if c = ',' ∨ c = '|' ∨ c = ':' ∨ c = ')' ∨ c = '('
      then .error "construct outside the modelled fragment"
    else .error "bad character"

/-- The nodes of a parsed template (`parse/node.go`), for the fragment: a `TextNode`, or an
`ActionNode` whose pipeline is one command, given by its operands, each a `FieldNode` with
its chain of identifiers. -/
inductive Node where
  | text (val : String)
  | action (operands : List (List String))
  deriving DecidableEq, Repr

/-- The parser's position inside an action: the operands read so far, and whether the
previous item was a field (a field right after a field extends the chain). -/
structure actionState where
  operands : List (List String)
  adjacent : Bool
  deriving DecidableEq, Repr

/-- Add a field item to the operands: it extends the last chain or starts an operand. -/
def addField (a : actionState) (name : String) : actionState :=
  if a.adjacent then
    match a.operands.reverse with
    | [] => ⟨[[name]], true⟩
    | last :: before => ⟨(before.reverse ++ [last ++ [name]]), true⟩
  else ⟨a.operands ++ [[name]], true⟩

/-- The parser (`parse/parse.go`: `textOrAction`, `action`, `pipeline`, `command`,
`operand`). -/
def parseItems : Option actionState → List item → Except String (List Node)
  | none, [] => .ok []
  | none, .text v :: r => (parseItems none r).map (fun l => Node.text (String.mk v) :: l)
  | none, .leftDelim :: r => parseItems (some ⟨[], false⟩) r
  | none, _ :: _ => .error "unexpected item in input"
  | some _, [] => .error "unclosed action"
  | some a, .field f :: r => parseItems (some (addField a (String.mk f))) r
  | some a, .space :: r => parseItems (some { a with adjacent := false }) r
  | some a, .rightDelim :: r =>
    if a.operands = [] then .error "missing value for command"
    else (parseItems none r).map (fun l => Node.action a.operands :: l)
  | some _, _ :: _ => .error "unexpected item in action"

/-- Go `template.New(name).Parse(text)`. -/
def Parse (text : String) : Except String (List Node) :=
  (lex (.text []) text.data).bind (parseItems none)

end texttemplate

namespace template

/-- Go's field lookup of `text/template` on the receiver `*Args` (`evalField`). -/
def Args.field (args : Args) (name : String) : Except String String :=
  if name = "Domain" then .ok args.Domain
  else if name = "ImapHost" then .ok args.ImapHost
  else if name = "SmtpHost" then .ok args.SmtpHost
  else if name = "EmailLocalPart" then .ok args.EmailLocalPart
  else .error ("can't evaluate field " ++ name ++ " in type template.Args")

/-- Go's `evalFieldChain` on `*Args`: the first identifier selects a field of `Args`; each
field is a string, which has no fields. -/
def evalFieldChain (args : Args) : List String → Except String String
  | [] => .error "empty field chain"
  | [name] => args.field name
  | _ :: name :: _ => .error ("can't evaluate field " ++ name ++ " in type string")

/-- Go's `evalCommand` for a command that starts with a field: further operands are
arguments, which a field that is no function does not take. -/
def evalCommand (args : Args) : List (List String) → Except String String
  | [] => .error "missing value for command"
  | [chain] => evalFieldChain args chain
  | _ :: _ :: _ => .error "can't give argument to non-function"

/-- Go's `Template.Execute(&b, args)`: walk the nodes, writing text nodes as they are and
the value of an action as `fmt.Fprint` prints a string, that is verbatim. The first
argument is the buffer. -/
def Execute (b : String) (args : Args) : List texttemplate.Node → Except String String
  | [] => .ok b
  | .text val :: rest => Execute (b ++ val) args rest
  | .action operands :: rest =>
    match evalCommand args operands with
    | .error e => .error e
    | .ok v => Execute (b ++ v) args rest

/-- The constant `thunderbirdTemplate` of `template/thunderbird.go`. -/
def thunderbirdTemplate : String :=
  String.join [
    "<?xml version=\"1.0\" encoding=\"UTF-8\"?>\n",
    "<clientConfig version=\"1.1\">\n",
    "\t<emailProvider id=\"\x7b\x7b.Domain\x7d\x7d\">\n",
    "\t    <domain>\x7b\x7b.Domain\x7d\x7d</domain>\n",
    "\n",
    "\t    <displayName>%EMAILADDRESS%</displayName>\n",
    "\t    <displayShortName>%EMAILLOCALPART%</displayShortName>\n",
    "\n",
    "\t    <incomingServer type=\"imap\">\n",
    "\t\t\t<hostname>\x7b\x7b.ImapHost\x7d\x7d</hostname>\n",
    "\t\t\t<port>993</port>\n",
    "\t\t\t<socketType>SSL</socketType>\n",
    "\t\t\t<authentication>password-cleartext</authentication>\n",
    "\t\t\t<username>%EMAILLOCALPART%</username>\n",
    "\t\t</incomingServer>\n",
    "\n",
    "\t    <outgoingServer type=\"smtp\">\n",
    "\t\t\t<hostname>\x7b\x7b.SmtpHost\x7d\x7d</hostname>\n",
    "\t\t\t<port>587</port>\n",
    "\t\t\t<socketType>STARTTLS</socketType>\n",
    "\t\t\t<authentication>password-cleartext</authentication>\n",
    "\t\t\t<username>%EMAILLOCALPART%</username>\n",
    "\t    </outgoingServer>\n",
    "\t</emailProvider>\n",
    "</clientConfig>"]

/-- The function `Thunderbird` of `template/thunderbird.go`; `.error` stands for the return
of `("", err)`. -/
def Thunderbird (args : Args) : Except String String :=
  match texttemplate.Parse thunderbirdTemplate with
  | .error err => .error err
  | .ok reportTmpl =>
    match Execute "" args reportTmpl with
    | .error err => .error err
    | .ok b => .ok b

/-- The document that the template describes, as a function of the three texts that stand
at its four actions: the lines of `thunderbirdTemplate`, with `domain` at both
`.Domain` actions, `imapHost` at the `.ImapHost` action and `smtpHost` at the `.SmtpHost`
action. -/
def thunderbirdDocument (domain imapHost smtpHost : String) : String :=
  String.join [
    "<?xml version=\"1.0\" encoding=\"UTF-8\"?>\n",
    "<clientConfig version=\"1.1\">\n",
    "\t<emailProvider id=\"", domain, "\">\n",
    "\t    <domain>", domain, "</domain>\n",
    "\n",
    "\t    <displayName>%EMAILADDRESS%</displayName>\n",
    "\t    <displayShortName>%EMAILLOCALPART%</displayShortName>\n",
    "\n",
    "\t    <incomingServer type=\"imap\">\n",
    "\t\t\t<hostname>", imapHost, "</hostname>\n",
    "\t\t\t<port>993</port>\n",
    "\t\t\t<socketType>SSL</socketType>\n",
    "\t\t\t<authentication>password-cleartext</authentication>\n",
    "\t\t\t<username>%EMAILLOCALPART%</username>\n",
    "\t\t</incomingServer>\n",
    "\n",
    "\t    <outgoingServer type=\"smtp\">\n",
    "\t\t\t<hostname>", smtpHost, "</hostname>\n",
    "\t\t\t<port>587</port>\n",
    "\t\t\t<socketType>STARTTLS</socketType>\n",
    "\t\t\t<authentication>password-cleartext</authentication>\n",
    "\t\t\t<username>%EMAILLOCALPART%</username>\n",
    "\t    </outgoingServer>\n",
    "\t</emailProvider>\n",
    "</clientConfig>"]

/-- The text of `thunderbirdTemplate` up to the value of the attribute `id`,
piece by piece. -/
def textBeforeId : String :=
  String.join [
    "<?xml version=\"1.0\" encoding=\"UTF-8\"?>\n",
    "<clientConfig version=\"1.1\">\n",
    "\t<emailProvider id=\""]

/-- The text of `thunderbirdTemplate` between the attribute `id` and the content of `domain`,
piece by piece. -/
def textBeforeDomain : String :=
  String.join [
    "\">\n",
    "\t    <domain>"]

/-- The text of `thunderbirdTemplate` between the content of `domain` and the host name of the incoming server,
piece by piece. -/
def textBeforeImapHost : String :=
  String.join [
    "</domain>\n",
    "\n",
    "\t    <displayName>%EMAILADDRESS%</displayName>\n",
    "\t    <displayShortName>%EMAILLOCALPART%</displayShortName>\n",
    "\n",
    "\t    <incomingServer type=\"imap\">\n",
    "\t\t\t<hostname>"]

/-- The text of `thunderbirdTemplate` between the two host names,
piece by piece. -/
def textBeforeSmtpHost : String :=
  String.join [
    "</hostname>\n",
    "\t\t\t<port>993</port>\n",
    "\t\t\t<socketType>SSL</socketType>\n",
    "\t\t\t<authentication>password-cleartext</authentication>\n",
    "\t\t\t<username>%EMAILLOCALPART%</username>\n",
    "\t\t</incomingServer>\n",
    "\n",
    "\t    <outgoingServer type=\"smtp\">\n",
    "\t\t\t<hostname>"]

/-- The text of `thunderbirdTemplate` after the host name of the outgoing server,
piece by piece. -/
def textAtEnd : String :=
  String.join [
    "</hostname>\n",
    "\t\t\t<port>587</port>\n",
    "\t\t\t<socketType>STARTTLS</socketType>\n",
    "\t\t\t<authentication>password-cleartext</authentication>\n",
    "\t\t\t<username>%EMAILLOCALPART%</username>\n",
    "\t    </outgoingServer>\n",
    "\t</emailProvider>\n",
    "</clientConfig>"]

end template

/-- The expression `strings.Split(addr, "@")[0]` of `HandleOutlookConfig`; `none` stands for
the index-out-of-range panic of `[0]` on an empty slice. -/
def emailLocalPart (addr : String) : Option String :=
  (strings.Split addr "@")[0]?


/-! ## The `net/http` interface of the handlers

The response writer is the one of the `net/http` server that `http.ListenAndServe` runs the
handlers under: what the handler does with it (header map, `WriteHeader`, `Write`) and what
the server makes of that (the default status, content sniffing, no body for `HEAD`). -/

namespace http

/-- Go `textproto.validHeaderFieldByte`: the token characters of RFC 7230. -/
def validHeaderFieldByte (c : Char) : Bool :=
  c.isAlphanum || "!#$%&\x27*+-.^_\x60|~".data.contains c

/-- The second loop of `textproto.canonicalMIMEHeaderKey`: upper case for the first letter
and for a letter after a dash, lower case elsewhere. -/
def canonicalLoop : Bool → List Char → List Char
  | _, [] => []
  | upper, c :: rest =>
    let c := if upper && c.isLower then c.toUpper
      else if !upper && c.isUpper then c.toLower else c
    c :: canonicalLoop (c = '-') rest

/-- Go `textproto.CanonicalMIMEHeaderKey`: a key with a character that is no token
character (a blank among them) is returned unchanged. -/
def CanonicalMIMEHeaderKey (s : String) : String :=
  if s.data.all validHeaderFieldByte then String.mk (canonicalLoop true s.data) else s

/-- Go `http.Header`, a `map[string][]string`, as an association list. -/
abbrev Header := List (String × List String)

/-- Go `Header.Add(key, value)`: append `value` to the values of the canonical key. -/
def Header.Add (h : Header) (key value : String) : Header :=
  let k := CanonicalMIMEHeaderKey key
  if h.any (fun e => e.1 = k) then h.map (fun e => if e.1 = k then (e.1, e.2 ++ [value]) else e)
  else h ++ [(k, [value])]

/-- Go `Header.Get(key)`: the first value of the canonical key, or the empty string. -/
def Header.Get (h : Header) (key : String) : String :=
  match h.lookup (CanonicalMIMEHeaderKey key) with
  | some (v :: _) => v
  | _ => ""

/-- Go `http.StatusBadRequest`. -/
def StatusBadRequest : Nat := 400

/-- Go `http.StatusInternalServerError`. -/
def StatusInternalServerError : Nat := 500

/-- Go `http.StatusOK`. -/
def StatusOK : Nat := 200

/-- Go `bodyAllowedForStatus`: no body with an informational status, 204 or 304. -/
def bodyAllowedForStatus (status : Nat) : Bool :=
  !((100 ≤ status && status ≤ 199) || status = 204 || status = 304)

/-- Go `suppressedHeaders`: the headers the server leaves out for a status without body. -/
def suppressedHeaders (status : Nat) : List String :=
  if status = 304 then ["Content-Type", "Content-Length", "Transfer-Encoding"]
  else if !bodyAllowedForStatus status then ["Content-Length", "Transfer-Encoding"]
  else []

/-- Go `isWS` of `sniff.go`: the white space that content sniffing skips. -/
def isWS (c : Char) : Bool :=
  c = '\t' || c = '\n' || c = '\x0c' || c = '\r' || c = ' '

/-- The HTML signatures of `sniffSignatures` (`sniff.go`), in order; they come first. -/
def htmlSignatures : List String :=
  ["<!DOCTYPE HTML", "<HTML", "<HEAD", "<SCRIPT", "<IFRAME", "<H1", "<DIV", "<FONT", "<TABLE",
    "<A", "<STYLE", "<TITLE", "<B", "<BODY", "<BR", "<P", "<!--"]

/-- One byte of `htmlSig.match`: an upper case letter of the signature matches the letter in
either case (the data byte is compared with bit 5 cleared), another byte matches itself. -/
def htmlSigByte (b c : Char) : Bool :=
  if b.isUpper then c = b || c = b.toLower else c = b

/-- Go `htmlSig.match`, on the data after the leading white space: the signature, then a byte
that ends a tag, a blank or `>`. -/
def htmlSigMatch : List Char → List Char → Bool
  | [], [] => false
  | [], c :: _ => c = ' ' || c = '>'
  | _ :: _, [] => false
  | b :: h, c :: data => htmlSigByte b c && htmlSigMatch h data

/-- Go `http.DetectContentType`, for the signatures up to the XML signature: the data, at
most its first 512 bytes and without leading white space, matches an HTML signature, or
begins with `<?xml`. The answer `none` stands for the signatures that come later in
`sniffSignatures`, which are not modelled. The signatures modelled and the white space are
ASCII, so a match lies in the first 512 bytes exactly when it lies in the first 512
characters. -/
def DetectContentType (data : String) : Option String :=
  let data := (data.data.take 512).dropWhile isWS
  if htmlSignatures.any (fun h => htmlSigMatch h.data data) then some "text/html; charset=utf-8"
  else if "<?xml".data.isPrefixOf data then some "text/xml; charset=utf-8"
  else none

/-- What a handler sees of an `http.Request`: the method, and what `ioutil.ReadAll(r.Body)`
returns, the bytes of the body or an error. -/
structure Request where
  Method : String
  Body : Except String (List UInt8)

/-- The `http.ResponseWriter` of the server (`response` in `server.go`), for a handler that
never calls `Flush`: the method of the request it answers, the header map that `Header()`
returns, whether the header was written, and then the status and the headers to send (a
copy of the map at that moment), and the data written, which the server buffers. -/
structure ResponseWriter where
  reqMethod : String
  header : Header
  wroteHeader : Bool
  status : Nat
  sentHeader : Header
  written : String
  deriving DecidableEq, Repr

/-- The writer the server calls a handler with, for the request `r`. -/
def ResponseWriter.new (r : Request) : ResponseWriter :=
  { reqMethod := r.Method, header := [], wroteHeader := false, status := 0, sentHeader := [],
    written := "" }

/-- Go `w.WriteHeader(code)` with a final status code (the handlers pass 400 and 500, `Write`
passes 200): the first call fixes the status and the headers to send. -/
def ResponseWriter.WriteHeader (w : ResponseWriter) (code : Nat) : ResponseWriter :=
  if w.wroteHeader then w
  else { w with wroteHeader := true, status := code, sentHeader := w.header }

/-- Go `w.Write(b)` (`response.write`): writes the header with status 200 when it was not
written yet; empty data and data for a status without body are not written; other data goes
to the buffer. The check against a `Content-Length` set by the handler is left out: the
handlers set none. -/
def ResponseWriter.Write (w : ResponseWriter) (b : String) : ResponseWriter :=
  let w := if w.wroteHeader then w else w.WriteHeader StatusOK
  if b = "" then w
  else if !bodyAllowedForStatus w.status then w
  else { w with written := w.written ++ b }

/-- Go `w.Header().Add(key, value)`. -/
def ResponseWriter.HeaderAdd (w : ResponseWriter) (key value : String) : ResponseWriter :=
  { w with header := w.header.Add key value }

/-- The response a client gets: the status, the headers and the body. Of the headers that
the server adds on its own, the `Content-Type` found by sniffing is part of `header` when one
of the modelled signatures decides it, and `laterSignature` says that a signature that is not
modelled decides it; `Date` and `Content-Length` are left out. -/
structure Response where
  status : Nat
  header : Header
  body : String
  laterSignature : Bool := false
  deriving DecidableEq, Repr

/-- The server sniffs the content type (`chunkWriter.writeHeader`): the status allows a body,
the handler set no `Content-Type`, no `Content-Encoding` and no `Transfer-Encoding`, and
there is data. -/
def ResponseWriter.sniffs (w : ResponseWriter) : Bool :=
  bodyAllowedForStatus w.status && !w.sentHeader.any (fun e => e.1 = "Content-Type")
    && w.sentHeader.Get "Content-Encoding" = "" && w.sentHeader.Get "Transfer-Encoding" = ""
    && w.written ≠ ""

/-- The response once the handler has returned (`finishRequest`, `chunkWriter.writeHeader`
and `chunkWriter.Write`): a handler that never wrote the header gets status 200; the headers
are those fixed when the header was written, without the suppressed ones, and with the
`Content-Type` that sniffing the buffered data gives; the body is the data written, but for
a `HEAD` request the server sends none of it (`chunkWriter.Write` returns right after the
header when `cw.res.req.Method == "HEAD"`). -/
def ResponseWriter.response (w : ResponseWriter) : Response :=
  let w := w.WriteHeader StatusOK
  let detected := if w.sniffs then DetectContentType w.written else none
  { status := w.status
    header := w.sentHeader.filter (fun e => !(suppressedHeaders w.status).contains e.1) ++
      (match detected with
        | some contentType => [("Content-Type", [contentType])]
        | none => [])
    body := if w.reqMethod = "HEAD" then "" else w.written
    laterSignature := w.sniffs && detected.isNone }

end http

/-! ## `cmd/autodiscover/main.go` -/

/-- The anonymous struct `xmlRec` that `HandleOutlookConfig` decodes the body into (the
fields of its `Request` member). -/
structure xmlRec where
  EMailAddress : String
  AcceptableResponseSchema : String
  deriving DecidableEq, Repr

/-- What the handlers call that is not in the source files at hand: `xml.Unmarshal` of the
standard library, at the type of `xmlRec`, and the renderer `template.OutlookMail`. The
renderer is called with a pointer, so it returns the value left behind the pointer too. -/
structure Externals where
  xmlUnmarshal : List UInt8 → Except String xmlRec
  OutlookMail : template.Args → template.Args × Except String String

/-- The calls a handler makes, in order. -/
inductive Event where
  | readAll
  | bodyClose
  | xmlUnmarshal (body : List UInt8)
  | OutlookMail (args : template.Args)
  | Thunderbird (args : template.Args)
  deriving DecidableEq, Repr

/-- The struct `Server`; `args` is what the pointer `s.args` points to. -/
structure Server where
  args : template.Args
  deriving DecidableEq, Repr

/-- Go `NewServer`. -/
def NewServer (templateArgs : template.Args) : Server := { args := templateArgs }

/-- A handler's effect: the server afterwards, the response writer, the calls made. -/
structure Outcome where
  server : Server
  w : http.ResponseWriter
  events : List Event
  deriving DecidableEq, Repr

/-- The method `(*Server).HandleThunderbirdConfig`. -/
def Server.HandleThunderbirdConfig (s : Server) (w : http.ResponseWriter) (_r : http.Request) :
    Outcome :=
  match template.Thunderbird s.args with
  | .error _ =>
    { server := s, w := w.WriteHeader http.StatusInternalServerError,
      events := [.Thunderbird s.args] }
  | .ok reply => { server := s, w := w.Write reply, events := [.Thunderbird s.args] }

/-- The method `(*Server).HandleOutlookConfig`; `none` stands for a panic. The deferred
`r.Body.Close()` is the last call of every path that reaches the `defer`. -/
def Server.HandleOutlookConfig (x : Externals) (s : Server) (w : http.ResponseWriter)
    (r : http.Request) : Option Outcome :=
  if r.Method ≠ "POST" then
    some { server := s, w := w.WriteHeader http.StatusBadRequest, events := [] }
  else
    match r.Body with
    | .error _ =>
      some { server := s, w := w.WriteHeader http.StatusInternalServerError,
             events := [.readAll, .bodyClose] }
    | .ok body =>
      match x.xmlUnmarshal body with
      | .error _ =>
        some { server := s, w := w.WriteHeader http.StatusBadRequest,
               events := [.readAll, .xmlUnmarshal body, .bodyClose] }
      | .ok rec =>
        let newArgs := s.args
        match emailLocalPart rec.EMailAddress with
        | none => none
        | some localPart =>
          let newArgs := { newArgs with EmailLocalPart := localPart }
          match x.OutlookMail newArgs with
          | (_, .error _) =>
            some { server := s, w := w.WriteHeader http.StatusInternalServerError,
                   events := [.readAll, .xmlUnmarshal body, .OutlookMail newArgs, .bodyClose] }
          | (_, .ok reply) =>
            some { server := s, w := (w.HeaderAdd "Content-type" "text/xml").Write reply,
                   events := [.readAll, .xmlUnmarshal body, .OutlookMail newArgs, .bodyClose] }


/-! ## Well-formedness of XML documents

A recogniser for the documents of XML 1.0 (fifth edition) that use no document type
declaration, comment, processing instruction or CDATA section: an optional XML declaration,
one root element, start tags with attributes, end tags, empty-element tags, character data,
references to the predefined entities and character references. The numbers are those of the
productions of the recommendation. A document with one of the constructs left out is
rejected. -/

namespace xml

/-- Production [2] `Char`. -/
def isChar (c : Char) : Bool :=
  let n := c.toNat
  n = 0x9 || n = 0xA || n = 0xD || (0x20 ≤ n && n ≤ 0xD7FF) || (0xE000 ≤ n && n ≤ 0xFFFD)
    || (0x10000 ≤ n && n ≤ 0x10FFFF)

/-- Production [3] `S`, one character of it. -/
def isS (c : Char) : Bool :=
  let n := c.toNat
  n = 0x20 || n = 0x9 || n = 0xD || n = 0xA

/-- Production [4] `NameStartChar`. -/
def isNameStartChar (c : Char) : Bool :=
  let n := c.toNat
  c = ':' || (0x41 ≤ n && n ≤ 0x5A) || c = '_' || (0x61 ≤ n && n ≤ 0x7A)
    || (0xC0 ≤ n && n ≤ 0xD6) || (0xD8 ≤ n && n ≤ 0xF6) || (0xF8 ≤ n && n ≤ 0x2FF)
    || (0x370 ≤ n && n ≤ 0x37D) || (0x37F ≤ n && n ≤ 0x1FFF) || (0x200C ≤ n && n ≤ 0x200D)
    || (0x2070 ≤ n && n ≤ 0x218F) || (0x2C00 ≤ n && n ≤ 0x2FEF) || (0x3001 ≤ n && n ≤ 0xD7FF)
    || (0xF900 ≤ n && n ≤ 0xFDCF) || (0xFDF0 ≤ n && n ≤ 0xFFFD) || (0x10000 ≤ n && n ≤ 0xEFFFF)

/-- Production [4a] `NameChar`. -/
def isNameChar (c : Char) : Bool :=
  let n := c.toNat
  isNameStartChar c || c = '-' || c = '.' || (0x30 ≤ n && n ≤ 0x39) || n = 0xB7
    || (0x300 ≤ n && n ≤ 0x36F) || (0x203F ≤ n && n ≤ 0x2040)

/-- The two quotation marks that delimit a literal. -/
def isQuote (c : Char) : Bool := c = '\x22' || c = '\x27'

/-- Drop a literal from the front. -/
def stripLit : List Char → List Char → Option (List Char)
  | [], s => some s
  | _ :: _, [] => none
  | l :: lit, c :: s => if l = c then stripLit lit s else none

/-- Drop a non-empty run of white space, production [3]. -/
def stripS (s : List Char) : Option (List Char) :=
  match s with
  | [] => none
  | c :: rest => if isS c then some (rest.dropWhile isS) else none

/-- Production [25] `Eq`. -/
def stripEq (s : List Char) : Option (List Char) :=
  match s.dropWhile isS with
  | '=' :: rest => some (rest.dropWhile isS)
  | _ => none

/-- A quoted literal whose content satisfies `p`. -/
def stripQuoted (p : List Char → Bool) (s : List Char) : Option (List Char) :=
  match s with
  | [] => none
  | q :: rest =>
    if isQuote q then
      let val := rest.takeWhile (fun c => c ≠ q)
      match rest.dropWhile (fun c => c ≠ q) with
      | [] => none
      | _ :: after => if p val then some after else none
    else none

/-- Production [26] `VersionNum`. -/
def isVersionNum (s : List Char) : Bool :=
  match s with
  | '1' :: '.' :: d :: ds => (d :: ds).all Char.isDigit
  | _ => false

/-- Production [81] `EncName`. -/
def isEncName (s : List Char) : Bool :=
  match s with
  | [] => false
  | c :: cs => c.isAlpha && cs.all (fun d => d.isAlphanum || d = '.' || d = '_' || d = '-')

/-- The literals `yes` and `no` of production [32]. -/
def isYesNo (s : List Char) : Bool := s = "yes".data || s = "no".data

/-- One pseudo-attribute of the XML declaration: `S name Eq` and a quoted value. -/
def stripPseudoAtt (name : String) (p : List Char → Bool) (s : List Char) :
    Option (List Char) :=
  ((stripS s).bind (stripLit name.data)).bind (fun r => (stripEq r).bind (stripQuoted p))

/-- Production [23] `XMLDecl`, for the text between `<?` and `?>`. -/
def isXMLDecl (s : List Char) : Bool :=
  match (stripLit "xml".data s).bind (stripPseudoAtt "version" isVersionNum) with
  | none => false
  | some r =>
    let r := (stripPseudoAtt "encoding" isEncName r).getD r
    let r := (stripPseudoAtt "standalone" isYesNo r).getD r
    r.dropWhile isS = []

/-- The value of a run of decimal digits. -/
def decValue (s : List Char) : Nat := s.foldl (fun a c => 10 * a + (c.toNat - 0x30)) 0

/-- The value of one hexadecimal digit. -/
def hexDigit (c : Char) : Option Nat :=
  let n := c.toNat
  if 0x30 ≤ n ∧ n ≤ 0x39 then some (n - 0x30)
  else if 0x41 ≤ n ∧ n ≤ 0x46 then some (n - 0x41 + 10)
  else if 0x61 ≤ n ∧ n ≤ 0x66 then some (n - 0x61 + 10)
  else none

/-- The value of a run of hexadecimal digits. -/
def hexValue (s : List Char) : Nat := s.foldl (fun a c => 16 * a + (hexDigit c).getD 0) 0

/-- Production [67] `Reference`, for the text between `&` and `;`: a character reference
[66] to a legal character, or a reference [68] to one of the predefined entities. -/
def isReference (s : List Char) : Bool :=
  match s with
  | '#' :: 'x' :: d :: ds =>
    (d :: ds).all (fun c => (hexDigit c).isSome) && decide (hexValue (d :: ds) ≤ 0x10FFFF)
      && isChar (Char.ofNat (hexValue (d :: ds)))
  | '#' :: d :: ds =>
    (d :: ds).all Char.isDigit && decide (decValue (d :: ds) ≤ 0x10FFFF)
      && isChar (Char.ofNat (decValue (d :: ds)))
  | _ => s = "amp".data || s = "lt".data || s = "gt".data || s = "apos".data || s = "quot".data

/-- Where the recogniser is in the document. Names and literals being read are kept in
reverse. -/
inductive Mode where
  /-- Nothing read yet. -/
  | start
  /-- After `<` as the first character of the document. -/
  | startLt
  /-- In the XML declaration, after `<?`; the flag says the last character was `?`. -/
  | xmlDecl (acc : List Char) (q : Bool)
  /-- Outside the root element, before it or (`rootDone`) after it. -/
  | misc (rootDone : Bool)
  /-- After `<`. -/
  | lt
  /-- In the name of a start tag. -/
  | openName (acc : List Char)
  /-- In a start tag after the name or an attribute; `ws` says white space was read since. -/
  | inTag (name : List Char) (attrs : List (List Char)) (ws : Bool)
  /-- In the name of an attribute. -/
  | attrName (name : List Char) (attrs : List (List Char)) (acc : List Char)
  /-- After the name of an attribute and white space, before `=`. -/
  | attrEq (name : List Char) (attrs : List (List Char))
  /-- After `=`, before the opening quote of the value. -/
  | attrVal0 (name : List Char) (attrs : List (List Char))
  /-- In an attribute value opened by the quote `q`. -/
  | attrVal (name : List Char) (attrs : List (List Char)) (q : Char)
  /-- In a reference inside an attribute value, after `&`. -/
  | attrRef (name : List Char) (attrs : List (List Char)) (q : Char) (acc : List Char)
  /-- After `/` in a start tag. -/
  | emptyClose
  /-- In character data; `k` counts the `]` just read, up to two. -/
  | content (k : Nat)
  /-- In a reference inside content, after `&`. -/
  | contentRef (acc : List Char)
  /-- In the name of an end tag, after `</`. -/
  | closeName (acc : List Char)
  /-- In an end tag after the name and white space. -/
  | closeS (name : List Char)
  deriving DecidableEq, Repr

/-- The state of the recogniser: the names of the open elements, innermost first, and the
mode. -/
structure State where
  stack : List (List Char)
  mode : Mode
  deriving DecidableEq, Repr

/-- After an element is closed: back to the content of its parent, or out of the root. -/
def afterElement (stack : List (List Char)) : State :=
  if stack = [] then ⟨stack, .misc true⟩ else ⟨stack, .content 0⟩

/-- The end tag `name` closes the innermost open element (constraint: Element Type Match). -/
def closeElement (stack : List (List Char)) (name : List Char) : Option State :=
  match stack with
  | [] => none
  | top :: below => if top = name then some (afterElement below) else none

/-- Start an attribute value once the attribute's name is read (constraint: Unique Att
Spec); `eq` says the `=` was read already. -/
def afterAttrName (stack : List (List Char)) (name : List Char) (attrs : List (List Char))
    (att : List Char) (eq : Bool) : Option State :=
  if att ∈ attrs then none
  else if eq then some ⟨stack, .attrVal0 name (att :: attrs)⟩
  else some ⟨stack, .attrEq name (att :: attrs)⟩

/-- One character of the document. -/
def step (st : State) (c : Char) : Option State :=
  match st.mode with
  | .start =>
    if c = '<' then some ⟨st.stack, .startLt⟩
    else if isS c then some ⟨st.stack, .misc false⟩
    else none
  | .startLt =>
    if c = '?' then some ⟨st.stack, .xmlDecl [] false⟩
    else if isNameStartChar c then some ⟨st.stack, .openName [c]⟩
    else none
  | .xmlDecl acc q =>
    if c = '>' ∧ q = true then
      if isXMLDecl (acc.drop 1).reverse then some ⟨st.stack, .misc false⟩ else none
    else some ⟨st.stack, .xmlDecl (c :: acc) (c = '?')⟩
  | .misc rootDone =>
    if isS c then some st
    else if c = '<' ∧ rootDone = false then some ⟨st.stack, .lt⟩
    else none
  | .lt =>
    if c = '/' then (if st.stack = [] then none else some ⟨st.stack, .closeName []⟩)
    else if isNameStartChar c then some ⟨st.stack, .openName [c]⟩
    else none
  | .openName acc =>
    if isNameChar c then some ⟨st.stack, .openName (c :: acc)⟩
    else if isS c then some ⟨st.stack, .inTag acc.reverse [] true⟩
    else if c = '>' then some ⟨acc.reverse :: st.stack, .content 0⟩
    else if c = '/' then some ⟨st.stack, .emptyClose⟩
    else none
  | .inTag name attrs ws =>
    if isS c then some ⟨st.stack, .inTag name attrs true⟩
    else if c = '>' then some ⟨name :: st.stack, .content 0⟩
    else if c = '/' then some ⟨st.stack, .emptyClose⟩
    else if isNameStartChar c ∧ ws = true then some ⟨st.stack, .attrName name attrs [c]⟩
    else none
  | .attrName name attrs acc =>
    if isNameChar c then some ⟨st.stack, .attrName name attrs (c :: acc)⟩
    else if c = '=' then afterAttrName st.stack name attrs acc.reverse true
    else if isS c then afterAttrName st.stack name attrs acc.reverse false
    else none
  | .attrEq name attrs =>
    if isS c then some st
    else if c = '=' then some ⟨st.stack, .attrVal0 name attrs⟩
    else none
  | .attrVal0 name attrs =>
    if isS c then some st
    else if isQuote c then some ⟨st.stack, .attrVal name attrs c⟩
    else none
  | .attrVal name attrs q =>
    if c = q then some ⟨st.stack, .inTag name attrs false⟩
    else if c = '<' then none
    else if c = '&' then some ⟨st.stack, .attrRef name attrs q []⟩
    else if isChar c then some st
    else none
  | .attrRef name attrs q acc =>
    if c = ';' then
      if isReference acc.reverse then some ⟨st.stack, .attrVal name attrs q⟩ else none
    else if isNameChar c ∨ c = '#' then some ⟨st.stack, .attrRef name attrs q (c :: acc)⟩
    else none
  | .emptyClose =>
    if c = '>' then some (afterElement st.stack) else none
  | .content k =>
    if c = '<' then some ⟨st.stack, .lt⟩
    else if c = '&' then some ⟨st.stack, .contentRef []⟩
    else if c = ']' then some ⟨st.stack, .content (min (k + 1) 2)⟩
    else if c = '>' then (if 2 ≤ k then none else some ⟨st.stack, .content 0⟩)
    else if isChar c then some ⟨st.stack, .content 0⟩
    else none
  | .contentRef acc =>
    if c = ';' then
      if isReference acc.reverse then some ⟨st.stack, .content 0⟩ else none
    else if isNameChar c ∨ c = '#' then some ⟨st.stack, .contentRef (c :: acc)⟩
    else none
  | .closeName acc =>
    if (acc = [] ∧ isNameStartChar c) ∨ (acc ≠ [] ∧ isNameChar c) then
      some ⟨st.stack, .closeName (c :: acc)⟩
    else if acc = [] then none
    else if isS c then some ⟨st.stack, .closeS acc.reverse⟩
    else if c = '>' then closeElement st.stack acc.reverse
    else none
  | .closeS name =>
    if isS c then some st
    else if c = '>' then closeElement st.stack name
    else none

/-- Run the recogniser over a text. -/
def run : State → List Char → Option State
  | st, [] => some st
  | st, c :: cs =>
    match step st c with
    | none => none
    | some st => run st cs

/-- The document is well-formed: the recogniser ends after the end tag of the root. -/
def wellFormed (doc : String) : Bool :=
  run ⟨[], .start⟩ doc.data = some ⟨[], .misc true⟩

/-- The text contains the delimiter that ends a CDATA section. -/
def hasCDEnd : List Char → Bool
  | [] => false
  | c :: rest => "]]>".data.isPrefixOf (c :: rest) || hasCDEnd rest

/-- The text is character data, production [14]: no `<`, no `&`, no CDATA end delimiter, and
characters of [2] only. -/
def isCharData (s : String) : Bool :=
  s.data.all (fun c => isChar c && c ≠ '<' && c ≠ '&') && !hasCDEnd s.data

/-- The text can stand between double quotes as an attribute value [10] without
references: no `<`, no `&`, no double quote, and characters of [2] only. -/
def isAttValueText (s : String) : Bool :=
  s.data.all (fun c => isChar c && c ≠ '<' && c ≠ '&' && c ≠ '\x22')

end xml


/-- The text `t` occurs in `doc`. -/
def occursIn (t doc : String) : Prop := ∃ a b : String, doc = a ++ t ++ b

/-! ## Example values -/

/-- The configuration of the specification's example. -/
def exampleArgs : template.Args :=
  { Domain := "example.com", ImapHost := "imap.example.com", SmtpHost := "smtp.example.com",
    EmailLocalPart := "" }

/-- Externals for the examples: a body of one byte `1` does not decode, every other body
decodes to the address `bob@example.com`; the renderer returns the user name element. -/
def exampleExternals : Externals :=
  { xmlUnmarshal := fun body =>
      if body = [1] then .error "EOF" else .ok ⟨"bob@example.com", "schema"⟩
    OutlookMail := fun args => (args, .ok ("<username>" ++ args.EmailLocalPart ++ "</username>")) }

/-! ## Facts about the string functions -/

namespace strings

theorem isPrefixOf_singleton (c d : Char) (s : List Char) :
    [c].isPrefixOf (d :: s) = decide (c = d) := by
  by_cases h : c = d <;> simp [List.isPrefixOf, h]

theorem Index_singleton_of_not_mem (c : Char) (s : List Char) (h : c ∉ s) :
    Index s [c] = -1 := by
  induction s with
  | nil => simp [Index]
  | cons d s ih =>
    have hd : c ≠ d := fun e => h (by simp [e])
    have hs : c ∉ s := fun e => h (by simp [e])
    simp [Index, isPrefixOf_singleton, hd, ih hs]

theorem Index_singleton_append (c : Char) (p rest : List Char) (h : c ∉ p) :
    Index (p ++ c :: rest) [c] = (p.length : Int) := by
  induction p with
  | nil => simp [Index, isPrefixOf_singleton]
  | cons d p ih =>
    have hd : c ≠ d := fun e => h (by simp [e])
    have hp : c ∉ p := fun e => h (by simp [e])
    have hlt : ¬ ((p.length : Int) < 0) := by omega
    simp [Index, isPrefixOf_singleton, hd, ih hp, hlt]

theorem len_cons (c : Char) (s : List Char) : len (c :: s) = len s + c.utf8Size := by
  simp [len, String.utf8ByteSize, String.utf8ByteSize.go]

theorem len_append (s t : List Char) : len (s ++ t) = len s + len t := by
  induction s with
  | nil => simp [len, String.utf8ByteSize, String.utf8ByteSize.go]
  | cons c s ih => simp only [List.cons_append, len_cons, ih]; omega

theorem genSplit_at_of_not_mem (s : List Char) (h : '@' ∉ s) :
    genSplit s ['@'] 0 (-1) = [s] := by
  have hc : List.count '@' s = 0 := List.count_eq_zero.mpr h
  have h1 : ¬ ((1 : Int) > (len s : Int) + 1) := by omega
  simp [genSplit, Count, hc, h1, genSplitLoop]

theorem genSplit_at_append (p rest : List Char) (h : '@' ∉ p) :
    ∃ tl, genSplit (p ++ '@' :: rest) ['@'] 0 (-1) = p :: tl := by
  have hlen : 1 ≤ len (p ++ '@' :: rest) := by
    rw [len_append, len_cons]
    have : Char.utf8Size '@' = 1 := by decide
    omega
  have hcnt : 1 ≤ List.count '@' (p ++ '@' :: rest) := by
    simp only [List.count_append, List.count_cons_self]
    omega
  obtain ⟨k, hk⟩ : ∃ k, (Int.toNat
      (if ((if (-1 : Int) < 0 then Count (p ++ '@' :: rest) ['@'] + 1 else -1) >
          (len (p ++ '@' :: rest) : Int) + 1)
        then (len (p ++ '@' :: rest) : Int) + 1
        else (if (-1 : Int) < 0 then Count (p ++ '@' :: rest) ['@'] + 1 else -1))) - 1 = k + 1 := by
    have hC : Count (p ++ '@' :: rest) ['@'] = (List.count '@' (p ++ '@' :: rest) : Int) := by
      have h1 : Char.utf8Size '@' = 1 := by decide
      simp only [Count, h1, if_true]
    rw [hC]
    simp only [show ((-1 : Int) < 0) from by decide, if_true]
    split
    · exact ⟨len (p ++ '@' :: rest) - 1, by omega⟩
    · exact ⟨List.count '@' (p ++ '@' :: rest) - 1, by omega⟩
  have hlt : ¬ ((p.length : Int) < 0) := by omega
  refine ⟨genSplitLoop ['@'] 0 k ((p ++ '@' :: rest).drop (p.length + 1)), ?_⟩
  unfold genSplit
  simp only [show ((-1 : Int) ≠ 0) from by decide, if_false, show (['@'] : List Char) ≠ [] from by simp]
  rw [hk]
  simp [genSplitLoop, Index_singleton_append '@' p rest h, hlt]

end strings

theorem emailLocalPart_of_not_mem (s : String) (h : '@' ∉ s.data) :
    emailLocalPart s = some s := by
  have : ("@" : String).data = ['@'] := rfl
  simp [emailLocalPart, strings.Split, this, strings.genSplit_at_of_not_mem s.data h]

theorem emailLocalPart_append (p rest : String) (h : '@' ∉ p.data) :
    emailLocalPart (p ++ "@" ++ rest) = some p := by
  have h1 : ("@" : String).data = ['@'] := rfl
  have h2 : (p ++ "@" ++ rest).data = p.data ++ '@' :: rest.data := by
    simp [String.data_append, h1]
  obtain ⟨tl, htl⟩ := strings.genSplit_at_append p.data rest.data h
  simp [emailLocalPart, strings.Split, h1, h2, htl]


theorem mem_split_first (c : Char) (s : List Char) (h : c ∈ s) :
    ∃ p rest, s = p ++ c :: rest ∧ c ∉ p := by
  induction s with
  | nil => simp at h
  | cons d s ih =>
    by_cases hd : c = d
    · exact ⟨[], s, by simp [hd], by simp⟩
    · have hs : c ∈ s := by
        rcases List.mem_cons.mp h with h' | h'
        · exact absurd h' hd
        · exact h'
      obtain ⟨p, rest, hp, hn⟩ := ih hs
      refine ⟨d :: p, rest, by simp [hp], ?_⟩
      intro hm
      rcases List.mem_cons.mp hm with h' | h'
      · exact hd h'
      · exact hn h'

theorem emailLocalPart_isSome (s : String) : ∃ localPart, emailLocalPart s = some localPart := by
  by_cases h : '@' ∈ s.data
  · obtain ⟨p, rest, hp, hn⟩ := mem_split_first '@' s.data h
    have hs : s = String.mk p ++ "@" ++ String.mk rest := by
      apply String.ext
      simp [String.data_append, hp]
    exact ⟨String.mk p, by rw [hs]; exact emailLocalPart_append _ _ hn⟩
  · exact ⟨s, emailLocalPart_of_not_mem s h⟩

/-! ## Facts about the Thunderbird renderer -/

namespace template
open texttemplate

set_option maxRecDepth 100000 in
theorem Parse_thunderbirdTemplate :
    Parse thunderbirdTemplate =
      .ok [.text textBeforeId, .action [["Domain"]], .text textBeforeDomain,
        .action [["Domain"]], .text textBeforeImapHost, .action [["ImapHost"]],
        .text textBeforeSmtpHost, .action [["SmtpHost"]], .text textAtEnd] := by
  rfl

theorem Thunderbird_eq_texts (args : Args) :
    Thunderbird args = .ok (textBeforeId ++ args.Domain ++ textBeforeDomain ++ args.Domain ++
      textBeforeImapHost ++ args.ImapHost ++ textBeforeSmtpHost ++ args.SmtpHost ++
      textAtEnd) := by
  unfold Thunderbird
  rw [Parse_thunderbirdTemplate]
  rfl

theorem join_foldl (l : List String) (acc : String) :
    List.foldl (fun r s => r ++ s) acc l = acc ++ String.join l := by
  induction l generalizing acc with
  | nil => simp [String.join]
  | cons x l ih =>
    simp only [List.foldl_cons, String.join]
    rw [ih (acc ++ x), ih ("" ++ x)]
    simp [String.append_assoc]

theorem join_cons (x : String) (l : List String) :
    String.join (x :: l) = x ++ String.join l := by
  simp only [String.join, List.foldl_cons]
  rw [join_foldl l ("" ++ x)]
  simp [String.join]

theorem join_nil : String.join [] = "" := rfl

theorem thunderbirdDocument_eq_texts (d i s : String) :
    thunderbirdDocument d i s = textBeforeId ++ d ++ textBeforeDomain ++ d ++
      textBeforeImapHost ++ i ++ textBeforeSmtpHost ++ s ++ textAtEnd := by
  unfold textBeforeId textBeforeDomain textBeforeImapHost textBeforeSmtpHost textAtEnd
    thunderbirdDocument
  simp only [join_cons, join_nil, String.append_assoc, String.append_empty]

theorem Thunderbird_eq (args : Args) :
    Thunderbird args = .ok (thunderbirdDocument args.Domain args.ImapHost args.SmtpHost) := by
  rw [Thunderbird_eq_texts, thunderbirdDocument_eq_texts]

end template

/-! ## Occurrences of a text -/

theorem occursIn_of_Index (t s : List Char) (h : 0 ≤ strings.Index s t) :
    ∃ a b, s = a ++ t ++ b := by
  induction s with
  | nil =>
    by_cases ht : t = []
    · exact ⟨[], [], by simp [ht]⟩
    · simp [strings.Index, ht] at h
  | cons c s ih =>
    by_cases hp : t.isPrefixOf (c :: s) = true
    · obtain ⟨b, hb⟩ := List.isPrefixOf_iff_prefix.mp hp
      exact ⟨[], b, by simp [hb]⟩
    · have hr : 0 ≤ strings.Index s t := by
        by_contra hneg
        have hlt : strings.Index s t < 0 := by omega
        simp [strings.Index, hp, hlt] at h
      obtain ⟨a, b, hab⟩ := ih hr
      exact ⟨c :: a, b, by simp [hab]⟩

theorem occursIn_of_Index_data (t s : String) (h : 0 ≤ strings.Index s.data t.data) :
    occursIn t s := by
  obtain ⟨a, b, hab⟩ := occursIn_of_Index t.data s.data h
  exact ⟨String.mk a, String.mk b, String.ext (by simp [String.data_append, hab])⟩

theorem occursIn_append_right (t s u : String) (h : occursIn t s) : occursIn t (s ++ u) := by
  obtain ⟨a, b, hab⟩ := h
  exact ⟨a, b ++ u, by rw [hab]; simp [String.append_assoc]⟩

theorem occursIn_append_left (t s u : String) (h : occursIn t s) : occursIn t (u ++ s) := by
  obtain ⟨a, b, hab⟩ := h
  exact ⟨u ++ a, b, by rw [hab]; simp [String.append_assoc]⟩

set_option maxRecDepth 100000 in
theorem occursIn_thunderbirdDocument_of_textBeforeImapHost (t d i s : String)
    (h : 0 ≤ strings.Index template.textBeforeImapHost.data t.data) :
    occursIn t (template.thunderbirdDocument d i s) := by
  rw [template.thunderbirdDocument_eq_texts]
  exact occursIn_append_right _ _ _ (occursIn_append_right _ _ _ (occursIn_append_right _ _ _
    (occursIn_append_right _ _ _ (occursIn_append_left _ _ _ (occursIn_of_Index_data _ _ h)))))

theorem occursIn_thunderbirdDocument_of_textBeforeSmtpHost (t d i s : String)
    (h : 0 ≤ strings.Index template.textBeforeSmtpHost.data t.data) :
    occursIn t (template.thunderbirdDocument d i s) := by
  rw [template.thunderbirdDocument_eq_texts]
  exact occursIn_append_right _ _ _ (occursIn_append_right _ _ _
    (occursIn_append_left _ _ _ (occursIn_of_Index_data _ _ h)))

theorem occursIn_thunderbirdDocument_of_textAtEnd (t d i s : String)
    (h : 0 ≤ strings.Index template.textAtEnd.data t.data) :
    occursIn t (template.thunderbirdDocument d i s) := by
  rw [template.thunderbirdDocument_eq_texts]
  exact occursIn_append_left _ _ _ (occursIn_of_Index_data _ _ h)

/-! ## Facts about the recogniser of well-formed documents -/

namespace xml

theorem run_append (st : State) (a b : List Char) :
    run st (a ++ b) = (run st a).bind (fun st' => run st' b) := by
  induction a generalizing st with
  | nil => simp [run]
  | cons c a ih =>
    simp only [List.cons_append, run]
    cases step st c with
    | none => simp
    | some st' => simpa using ih st'

theorem run_attrVal (stack : List (List Char)) (name : List Char) (attrs : List (List Char))
    (s : List Char)
    (h : s.all (fun c => isChar c && c ≠ '<' && c ≠ '&' && c ≠ '\x22') = true) :
    run ⟨stack, .attrVal name attrs '\x22'⟩ s = some ⟨stack, .attrVal name attrs '\x22'⟩ := by
  induction s with
  | nil => simp [run]
  | cons c s ih =>
    simp only [List.all_cons, Bool.and_eq_true, decide_eq_true_eq] at h
    obtain ⟨⟨⟨⟨h1, h2⟩, h3⟩, h4⟩, hs⟩ := h
    have hstep : step ⟨stack, .attrVal name attrs '\x22'⟩ c =
        some ⟨stack, .attrVal name attrs '\x22'⟩ := by
      simp [step, h1, h2, h3, h4]
    simp only [run, hstep]
    exact ih hs

theorem hasCDEnd_cons (c : Char) (s : List Char) :
    hasCDEnd (c :: s) = ("]]>".data.isPrefixOf (c :: s) || hasCDEnd s) := rfl

theorem run_content (stack : List (List Char)) (s : List Char) :
    ∀ k, k ≤ 2 →
      s.all (fun c => isChar c && c ≠ '<' && c ≠ '&') = true →
      hasCDEnd (List.replicate k ']' ++ s) = false →
      ∃ k', run ⟨stack, .content k⟩ s = some ⟨stack, .content k'⟩ := by
  induction s with
  | nil => intro k _ _ _; exact ⟨k, by simp [run]⟩
  | cons c s ih =>
    intro k hk h hcd
    simp only [List.all_cons, Bool.and_eq_true, decide_eq_true_eq] at h
    obtain ⟨⟨⟨h1, h2⟩, h3⟩, hs⟩ := h
    have hlit : "]]>".data = [']', ']', '>'] := rfl
    by_cases hb : c = ']'
    · subst hb
      have hstep : step ⟨stack, .content k⟩ ']' = some ⟨stack, .content (min (k + 1) 2)⟩ := by
        simp [step]
      have hcd' : hasCDEnd (List.replicate (min (k + 1) 2) ']' ++ s) = false := by
        interval_cases k
        · simpa [List.replicate] using hcd
        · simpa [List.replicate] using hcd
        · simp [List.replicate, hasCDEnd_cons, hlit, List.isPrefixOf] at hcd ⊢
          exact hcd
      obtain ⟨k', hk'⟩ := ih _ (by omega) hs hcd'
      exact ⟨k', by simp only [run, hstep]; exact hk'⟩
    · by_cases hg : c = '>'
      · subst hg
        have hk2 : k < 2 := by
          rcases Nat.lt_or_ge k 2 with h' | h'
          · exact h'
          · have : k = 2 := by omega
            subst this
            simp [List.replicate, hasCDEnd_cons, hlit, List.isPrefixOf] at hcd
        have hstep : step ⟨stack, .content k⟩ '>' = some ⟨stack, .content 0⟩ := by
          have : ¬ 2 ≤ k := by omega
          simp [step, this]
        have hcd' : hasCDEnd (List.replicate 0 ']' ++ s) = false := by
          interval_cases k
          · simp [List.replicate, hasCDEnd_cons, hlit, List.isPrefixOf] at hcd ⊢
            exact hcd
          · simp [List.replicate, hasCDEnd_cons, hlit, List.isPrefixOf] at hcd ⊢
            exact hcd
        obtain ⟨k', hk'⟩ := ih 0 (by omega) hs hcd'
        exact ⟨k', by simp only [run, hstep]; exact hk'⟩
      · have hstep : step ⟨stack, .content k⟩ c = some ⟨stack, .content 0⟩ := by
          simp [step, h1, h2, h3, hb, hg]
        have hb' : ¬ ']' = c := fun e => hb e.symm
        have hg' : ¬ '>' = c := fun e => hg e.symm
        have hcd' : hasCDEnd (List.replicate 0 ']' ++ s) = false := by
          interval_cases k <;>
            simp [List.replicate, hasCDEnd_cons, hlit, List.isPrefixOf, hb, hg, hb', hg'] at hcd ⊢ <;>
            exact hcd
        obtain ⟨k', hk'⟩ := ih 0 (by omega) hs hcd'
        exact ⟨k', by simp only [run, hstep]; exact hk'⟩

theorem run_content_lt (stack : List (List Char)) (k : Nat) (t : List Char) :
    run ⟨stack, .content k⟩ ('<' :: t) = run ⟨stack, .lt⟩ t := by
  simp [run, step]

end xml

namespace xml
open template

set_option maxRecDepth 100000 in
theorem run_textBeforeId :
    run ⟨[], .start⟩ textBeforeId.data =
      some ⟨["clientConfig".data], .attrVal "emailProvider".data ["id".data] '\x22'⟩ := by
  decide

set_option maxRecDepth 100000 in
theorem run_textBeforeDomain :
    run ⟨["clientConfig".data], .attrVal "emailProvider".data ["id".data] '\x22'⟩
        textBeforeDomain.data =
      some ⟨["domain".data, "emailProvider".data, "clientConfig".data], .content 0⟩ := by
  decide

set_option maxRecDepth 100000 in
theorem run_textBeforeImapHost (k : Nat) :
    run ⟨["domain".data, "emailProvider".data, "clientConfig".data], .content k⟩
        textBeforeImapHost.data =
      some ⟨["hostname".data, "incomingServer".data, "emailProvider".data,
        "clientConfig".data], .content 0⟩ := by
  have h : textBeforeImapHost.data = '<' :: textBeforeImapHost.data.tail := by decide
  rw [h, run_content_lt]
  decide

set_option maxRecDepth 100000 in
theorem run_textBeforeSmtpHost (k : Nat) :
    run ⟨["hostname".data, "incomingServer".data, "emailProvider".data,
        "clientConfig".data], .content k⟩ textBeforeSmtpHost.data =
      some ⟨["hostname".data, "outgoingServer".data, "emailProvider".data,
        "clientConfig".data], .content 0⟩ := by
  have h : textBeforeSmtpHost.data = '<' :: textBeforeSmtpHost.data.tail := by decide
  rw [h, run_content_lt]
  decide

set_option maxRecDepth 100000 in
theorem run_textAtEnd (k : Nat) :
    run ⟨["hostname".data, "outgoingServer".data, "emailProvider".data,
        "clientConfig".data], .content k⟩ textAtEnd.data = some ⟨[], .misc true⟩ := by
  have h : textAtEnd.data = '<' :: textAtEnd.data.tail := by decide
  rw [h, run_content_lt]
  decide

theorem run_isCharData (stack : List (List Char)) (s : String) (h : isCharData s = true) :
    ∃ k, run ⟨stack, .content 0⟩ s.data = some ⟨stack, .content k⟩ := by
  simp only [isCharData, Bool.and_eq_true, Bool.not_eq_true'] at h
  exact run_content stack s.data 0 (by omega) h.1 (by simpa using h.2)

theorem wellFormed_thunderbird (d i s : String) (hd : isAttValueText d = true)
    (hd' : isCharData d = true) (hi : isCharData i = true) (hs : isCharData s = true) :
    wellFormed (textBeforeId ++ d ++ textBeforeDomain ++ d ++ textBeforeImapHost ++ i ++
      textBeforeSmtpHost ++ s ++ textAtEnd) = true := by
  obtain ⟨k1, h1⟩ := run_isCharData ["domain".data, "emailProvider".data, "clientConfig".data]
    d hd'
  obtain ⟨k2, h2⟩ := run_isCharData ["hostname".data, "incomingServer".data,
    "emailProvider".data, "clientConfig".data] i hi
  obtain ⟨k3, h3⟩ := run_isCharData ["hostname".data, "outgoingServer".data,
    "emailProvider".data, "clientConfig".data] s hs
  have h0 := run_attrVal ["clientConfig".data] "emailProvider".data ["id".data] d.data hd
  have e : (textBeforeId ++ d ++ textBeforeDomain ++ d ++ textBeforeImapHost ++ i ++
      textBeforeSmtpHost ++ s ++ textAtEnd).data =
      textBeforeId.data ++ (d.data ++ (textBeforeDomain.data ++ (d.data ++
        (textBeforeImapHost.data ++ (i.data ++ (textBeforeSmtpHost.data ++
          (s.data ++ textAtEnd.data))))))) := by
    simp only [String.data_append, List.append_assoc]
  unfold wellFormed
  rw [e, run_append, run_textBeforeId, Option.some_bind, run_append, h0, Option.some_bind,
    run_append, run_textBeforeDomain, Option.some_bind, run_append, h1, Option.some_bind,
    run_append, run_textBeforeImapHost, Option.some_bind, run_append, h2, Option.some_bind,
    run_append, run_textBeforeSmtpHost, Option.some_bind, run_append, h3, Option.some_bind,
    run_textAtEnd]
  exact decide_eq_true rfl

end xml

namespace xml

/-- What the recogniser accepts and rejects, on small documents. -/
theorem wellFormed_samples :
    wellFormed "<a/>" = true ∧
      wellFormed "<?xml version=\"1.0\" standalone=\"yes\" ?><a b=\"x>\" c = \"y\">t&amp;]]&#x41;<b/>u</a >\n" = true ∧
      wellFormed "<a b=\"<\"/>" = false ∧
      wellFormed "<a>R&D</a>" = false ∧
      wellFormed "<a>]]></a>" = false ∧
      wellFormed "<a></b>" = false ∧
      wellFormed "<a b=\"1\" b=\"2\"/>" = false ∧
      wellFormed "<a/><b/>" = false ∧
      wellFormed "<a>&nbsp;</a>" = false ∧
      wellFormed " <?xml version=\"1.0\"?><a/>" = false ∧
      wellFormed "<?xml encoding=\"UTF-8\"?><a/>" = false ∧
      wellFormed "<a b=\"1\"c=\"2\"/>" = false ∧
      wellFormed "" = false ∧
      wellFormed "<a>" = false := by
  decide

end xml

/-! ## Facts about the handlers -/

namespace http

theorem response_WriteHeader_new (r : Request) (code : Nat) :
    ((ResponseWriter.new r).WriteHeader code).response =
      { status := code, header := [], body := "" } := by
  simp [ResponseWriter.response, ResponseWriter.WriteHeader, ResponseWriter.new,
    ResponseWriter.sniffs]

theorem Add_Content_type :
    Header.Add [] "Content-type" "text/xml" = [("Content-Type", ["text/xml"])] := by
  decide

theorem Get_Content_type :
    Header.Get [("Content-Type", ["text/xml"])] "Content-type" = "text/xml" := by
  decide

theorem response_HeaderAdd_Write_new (r : Request) (reply : String) (hm : r.Method ≠ "HEAD") :
    (((ResponseWriter.new r).HeaderAdd "Content-type" "text/xml").Write reply).response =
      { status := 200, header := [("Content-Type", ["text/xml"])], body := reply } := by
  have h200 : bodyAllowedForStatus 200 = true := by decide
  have hsup : suppressedHeaders 200 = [] := by decide
  by_cases hr : reply = ""
  · subst hr
    simp [ResponseWriter.response, ResponseWriter.Write, ResponseWriter.HeaderAdd,
      ResponseWriter.WriteHeader, ResponseWriter.new, ResponseWriter.sniffs, StatusOK,
      Add_Content_type, hsup]
  · simp [ResponseWriter.response, ResponseWriter.Write, ResponseWriter.HeaderAdd,
      ResponseWriter.WriteHeader, ResponseWriter.new, ResponseWriter.sniffs, StatusOK,
      Add_Content_type, hsup, h200, hr, hm]

theorem htmlSigMatch_question (h : List Char) (rest : List Char) (b : Char) (hb : b ≠ '?')
    (hu : b.toLower ≠ '?') :
    htmlSigMatch ('<' :: b :: h) ('<' :: '?' :: rest) = false := by
  have hq : htmlSigByte b '?' = false := by
    unfold htmlSigByte
    split <;> simp [Ne.symm hb, Ne.symm hu]
  simp [htmlSigMatch, hq]

theorem DetectContentType_xml (tail : List Char) :
    DetectContentType (String.mk ('<' :: '?' :: 'x' :: 'm' :: 'l' :: tail)) =
      some "text/xml; charset=utf-8" := by
  have ht : List.take 512 ('<' :: '?' :: 'x' :: 'm' :: 'l' :: tail) =
      '<' :: '?' :: 'x' :: 'm' :: 'l' :: List.take 507 tail := rfl
  have hw : isWS '<' = false := by decide
  have hd : List.dropWhile isWS ('<' :: '?' :: 'x' :: 'm' :: 'l' :: List.take 507 tail) =
      '<' :: '?' :: 'x' :: 'm' :: 'l' :: List.take 507 tail := by
    simp [List.dropWhile, hw]
  have hh : htmlSignatures.any (fun h => htmlSigMatch h.data
      ('<' :: '?' :: 'x' :: 'm' :: 'l' :: List.take 507 tail)) = false := by
    rw [List.any_eq_false]
    intro h hmem
    simp only [htmlSignatures, List.mem_cons, List.mem_singleton, List.not_mem_nil,
      or_false] at hmem
    rcases hmem with h | h | h | h | h | h | h | h | h | h | h | h | h | h | h | h | h <;>
      subst h <;> simp <;> exact htmlSigMatch_question _ _ _ (by decide) (by decide)
  have hx : "<?xml".data.isPrefixOf ('<' :: '?' :: 'x' :: 'm' :: 'l' :: List.take 507 tail) =
      true := by
    simp [List.isPrefixOf]
  simp only [DetectContentType, ht, hd, hh, hx]
  simp

theorem response_Write_new (r : Request) (doc : String) (tail : List Char)
    (hd : doc = String.mk ('<' :: '?' :: 'x' :: 'm' :: 'l' :: tail)) :
    ((ResponseWriter.new r).Write doc).response =
      { status := 200, header := [("Content-Type", ["text/xml; charset=utf-8"])],
        body := if r.Method = "HEAD" then "" else doc } ∧
      ((ResponseWriter.new r).Write doc).header = [] ∧
      ((ResponseWriter.new r).Write doc).written = doc := by
  have h200 : bodyAllowedForStatus 200 = true := by decide
  have hsup : suppressedHeaders 200 = [] := by decide
  have hne : doc ≠ "" := by
    rw [hd]
    intro h
    have := congrArg String.data h
    simp at this
  have hdet : DetectContentType doc = some "text/xml; charset=utf-8" := by
    rw [hd]
    exact DetectContentType_xml tail
  have hget1 : Header.Get [] "Content-Encoding" = "" := by decide
  have hget2 : Header.Get [] "Transfer-Encoding" = "" := by decide
  refine ⟨?_, ?_, ?_⟩
  · simp [ResponseWriter.response, ResponseWriter.Write, ResponseWriter.WriteHeader,
      ResponseWriter.new, ResponseWriter.sniffs, StatusOK, hsup, h200, hne, hdet, hget1, hget2]
  · simp [ResponseWriter.Write, ResponseWriter.WriteHeader, ResponseWriter.new, StatusOK,
      h200, hne]
  · simp [ResponseWriter.Write, ResponseWriter.WriteHeader, ResponseWriter.new, StatusOK,
      h200, hne]

end http

theorem thunderbirdDocument_begins (d i s : String) :
    ∃ tail, template.thunderbirdDocument d i s =
      String.mk ('<' :: '?' :: 'x' :: 'm' :: 'l' :: tail) := by
  have h : template.textBeforeId.data =
      '<' :: '?' :: 'x' :: 'm' :: 'l' :: template.textBeforeId.data.drop 5 := by decide
  refine ⟨template.textBeforeId.data.drop 5 ++ (d.data ++ (template.textBeforeDomain.data ++
    (d.data ++ (template.textBeforeImapHost.data ++ (i.data ++
      (template.textBeforeSmtpHost.data ++ (s.data ++ template.textAtEnd.data))))))), ?_⟩
  rw [template.thunderbirdDocument_eq_texts]
  apply String.ext
  simp only [String.data_append, List.append_assoc]
  rw [h]
  simp

theorem HandleOutlookConfig_of_not_POST (x : Externals) (s : Server) (w : http.ResponseWriter)
    (r : http.Request) (hm : r.Method ≠ "POST") :
    Server.HandleOutlookConfig x s w r =
      some { server := s, w := w.WriteHeader http.StatusBadRequest, events := [] } := by
  unfold Server.HandleOutlookConfig
  rw [if_pos hm]

theorem HandleOutlookConfig_of_read_error (x : Externals) (s : Server)
    (w : http.ResponseWriter) (r : http.Request) (e : String)
    (hm : r.Method = "POST") (hb : r.Body = .error e) :
    Server.HandleOutlookConfig x s w r =
      some { server := s, w := w.WriteHeader http.StatusInternalServerError,
             events := [.readAll, .bodyClose] } := by
  unfold Server.HandleOutlookConfig
  rw [if_neg (by simp [hm])]
  simp only [hb]

theorem HandleOutlookConfig_of_parse_error (x : Externals) (s : Server)
    (w : http.ResponseWriter) (r : http.Request) (body : List UInt8) (e : String)
    (hm : r.Method = "POST") (hb : r.Body = .ok body) (hx : x.xmlUnmarshal body = .error e) :
    Server.HandleOutlookConfig x s w r =
      some { server := s, w := w.WriteHeader http.StatusBadRequest,
             events := [.readAll, .xmlUnmarshal body, .bodyClose] } := by
  unfold Server.HandleOutlookConfig
  rw [if_neg (by simp [hm])]
  simp only [hb, hx]

theorem HandleOutlookConfig_parsed (x : Externals) (s : Server) (w : http.ResponseWriter)
    (r : http.Request) (body : List UInt8) (rec : xmlRec) (localPart : String)
    (hm : r.Method = "POST") (hb : r.Body = .ok body) (hx : x.xmlUnmarshal body = .ok rec)
    (hl : emailLocalPart rec.EMailAddress = some localPart) :
    Server.HandleOutlookConfig x s w r =
      some { server := s
             w := match (x.OutlookMail { s.args with EmailLocalPart := localPart }).2 with
               | .error _ => w.WriteHeader http.StatusInternalServerError
               | .ok reply => (w.HeaderAdd "Content-type" "text/xml").Write reply
             events := [.readAll, .xmlUnmarshal body,
               .OutlookMail { s.args with EmailLocalPart := localPart }, .bodyClose] } := by
  unfold Server.HandleOutlookConfig
  rw [if_neg (by simp [hm])]
  simp only [hb, hx, hl]
  rcases h : x.OutlookMail { s.args with EmailLocalPart := localPart } with ⟨a, e | reply⟩ <;> rfl

theorem HandleOutlookConfig_server (x : Externals) (s : Server) (w : http.ResponseWriter)
    (r : http.Request) :
    ∃ o, Server.HandleOutlookConfig x s w r = some o ∧ o.server = s ∧
      ∀ a, Event.OutlookMail a ∈ o.events →
        a = { s.args with EmailLocalPart := a.EmailLocalPart } := by
  by_cases hm : r.Method = "POST"
  · rcases hb : r.Body with e | body
    · exact ⟨_, HandleOutlookConfig_of_read_error x s w r e hm hb, rfl, by simp⟩
    · rcases hx : x.xmlUnmarshal body with e | rec
      · exact ⟨_, HandleOutlookConfig_of_parse_error x s w r body e hm hb hx, rfl, by simp⟩
      · obtain ⟨localPart, hl⟩ := emailLocalPart_isSome rec.EMailAddress
        refine ⟨_, HandleOutlookConfig_parsed x s w r body rec localPart hm hb hx hl, rfl, ?_⟩
        intro a ha
        simp only [List.mem_cons, List.mem_singleton, List.not_mem_nil, or_false,
          Event.OutlookMail.injEq, false_or, reduceCtorEq] at ha
        rw [ha]
  · exact ⟨_, HandleOutlookConfig_of_not_POST x s w r hm, rfl, by simp⟩

theorem HandleThunderbirdConfig_eq (s : Server) (w : http.ResponseWriter) (r : http.Request) :
    Server.HandleThunderbirdConfig s w r =
      { server := s
        w := w.Write
          (template.thunderbirdDocument s.args.Domain s.args.ImapHost s.args.SmtpHost)
        events := [.Thunderbird s.args] } := by
  simp only [Server.HandleThunderbirdConfig, template.Thunderbird_eq s.args]

theorem HandleThunderbirdConfig_response (s : Server) (r : http.Request) :
    (Server.HandleThunderbirdConfig s (http.ResponseWriter.new r) r).events =
        [.Thunderbird s.args] ∧
      (Server.HandleThunderbirdConfig s (http.ResponseWriter.new r) r).w.header = [] ∧
      (Server.HandleThunderbirdConfig s (http.ResponseWriter.new r) r).w.written =
        template.thunderbirdDocument s.args.Domain s.args.ImapHost s.args.SmtpHost ∧
      (Server.HandleThunderbirdConfig s (http.ResponseWriter.new r) r).w.response =
        { status := 200, header := [("Content-Type", ["text/xml; charset=utf-8"])],
          body := if r.Method = "HEAD" then ""
            else template.thunderbirdDocument s.args.Domain s.args.ImapHost s.args.SmtpHost } := by
  obtain ⟨tail, ht⟩ := thunderbirdDocument_begins s.args.Domain s.args.ImapHost s.args.SmtpHost
  obtain ⟨h1, h2, h3⟩ := http.response_Write_new r _ tail ht
  simp only [HandleThunderbirdConfig_eq]
  refine ⟨trivial, ?_, ?_, ?_⟩
  · exact h2
  · exact h3
  · exact h1

/-! ## The claims -/

set_option maxRecDepth 100000

/-- C1: for an address `s = p ++ "@" ++ rest` whose `p` contains no `@`, the local part that
`HandleOutlookConfig` derives, `strings.Split(s, "@")[0]`, is `p`, the text before the first
`@`, and a POST request whose body decodes to the address `s` has the renderer called with
`EmailLocalPart = p`. -/
theorem emailLocalPart_before_first_at (s p rest : String) (hs : s = p ++ "@" ++ rest)
    (hp : '@' ∉ p.data) :
    emailLocalPart s = some p ∧
      ∀ (x : Externals) (srv : Server) (w : http.ResponseWriter) (r : http.Request)
        (body : List UInt8) (rec : xmlRec),
        r.Method = "POST" → r.Body = .ok body → x.xmlUnmarshal body = .ok rec →
        rec.EMailAddress = s →
        ∃ o, Server.HandleOutlookConfig x srv w r = some o ∧
          o.events = [.readAll, .xmlUnmarshal body,
            .OutlookMail { srv.args with EmailLocalPart := p }, .bodyClose] := by
  have h : emailLocalPart s = some p := by rw [hs]; exact emailLocalPart_append p rest hp
  refine ⟨h, ?_⟩
  intro x srv w r body rec hm hb hx he
  exact ⟨_, HandleOutlookConfig_parsed x srv w r body rec p hm hb hx (by rw [he]; exact h), rfl⟩

/-- The address `a@b@c` gives the local part `a` (and `alice@example.com` gives `alice`). -/
theorem emailLocalPart_before_first_at_witness :
    ("a@b@c" = "a" ++ "@" ++ "b@c" ∧ '@' ∉ ("a" : String).data) ∧
      emailLocalPart "a@b@c" = some "a" ∧
      emailLocalPart "alice@example.com" = some "alice" :=
  ⟨⟨by decide, by decide⟩,
    (emailLocalPart_before_first_at "a@b@c" "a" "b@c" (by decide) (by decide)).1,
    (emailLocalPart_before_first_at "alice@example.com" "alice" "example.com" (by decide)
      (by decide)).1⟩

/-- C2: for an address `s` that contains no `@` (the empty string is one), the split has an
element 0, so the indexing does not fail, and the derived local part is `s` itself. -/
theorem emailLocalPart_without_at (s : String) (h : '@' ∉ s.data) :
    strings.Split s "@" = [s] ∧ 0 < (strings.Split s "@").length ∧
      emailLocalPart s = some s := by
  have h1 : ("@" : String).data = ['@'] := rfl
  have h2 : strings.Split s "@" = [s] := by
    simp [strings.Split, h1, strings.genSplit_at_of_not_mem s.data h]
  exact ⟨h2, by simp [h2], emailLocalPart_of_not_mem s h⟩

/-- The empty address and the address `nobody` are their own local parts. -/
theorem emailLocalPart_without_at_witness :
    ('@' ∉ ("" : String).data ∧ emailLocalPart "" = some "") ∧
      ('@' ∉ ("nobody" : String).data ∧ emailLocalPart "nobody" = some "nobody") :=
  ⟨⟨by decide, (emailLocalPart_without_at "" (by decide)).2.2⟩,
    ⟨by decide, (emailLocalPart_without_at "nobody" (by decide)).2.2⟩⟩

/-- C3: a request to `HandleOutlookConfig` whose method is not `POST` gets status 400 with an
empty body; the handler sets no header (no `Content-type` among them), and it neither reads
the body nor parses nor renders: it makes no call at all. -/
theorem HandleOutlookConfig_not_POST (x : Externals) (s : Server) (r : http.Request)
    (hm : r.Method ≠ "POST") :
    ∃ o, Server.HandleOutlookConfig x s (http.ResponseWriter.new r) r = some o ∧
      o.w.response = { status := 400, header := [], body := "" } ∧
      o.w.header = [] ∧ http.Header.Get o.w.response.header "Content-type" = "" ∧
      o.events = [] :=
  ⟨_, HandleOutlookConfig_of_not_POST x s _ r hm, http.response_WriteHeader_new r 400, rfl,
    by rw [http.response_WriteHeader_new r http.StatusBadRequest]; rfl, rfl⟩

/-- A GET request with a body that would decode gets status 400 and an empty body. -/
theorem HandleOutlookConfig_not_POST_witness :
    ("GET" : String) ≠ "POST" ∧
      ∃ o, Server.HandleOutlookConfig exampleExternals (NewServer exampleArgs)
          (http.ResponseWriter.new { Method := "GET", Body := .ok [60, 97, 47, 62] })
          { Method := "GET", Body := .ok [60, 97, 47, 62] } = some o ∧
        o.w.response = { status := 400, header := [], body := "" } ∧
        o.w.header = [] ∧ http.Header.Get o.w.response.header "Content-type" = "" ∧
        o.events = [] :=
  ⟨by decide, HandleOutlookConfig_not_POST exampleExternals (NewServer exampleArgs)
    { Method := "GET", Body := .ok [60, 97, 47, 62] } (by decide)⟩

/-- C4: for every `Args`, `Thunderbird` returns the text of `thunderbirdTemplate` with
`Args.Domain` in place of both `.Domain` actions, `Args.ImapHost` in place of the `.ImapHost`
action and `Args.SmtpHost` in place of the `.SmtpHost` action, verbatim, and every other
character unchanged: the template and the output are the same function
`thunderbirdDocument` of the texts at the actions. In particular the output contains the
tokens `%EMAILADDRESS%` and `%EMAILLOCALPART%` literally, in `displayName`,
`displayShortName` and both `username` elements, and the fixed ports 993 with SSL and 587
with STARTTLS. -/
theorem Thunderbird_eq_thunderbirdDocument (args : template.Args) :
    template.thunderbirdTemplate =
        template.thunderbirdDocument "\x7b\x7b.Domain\x7d\x7d" "\x7b\x7b.ImapHost\x7d\x7d"
          "\x7b\x7b.SmtpHost\x7d\x7d" ∧
      template.Thunderbird args =
        .ok (template.thunderbirdDocument args.Domain args.ImapHost args.SmtpHost) ∧
      occursIn "<displayName>%EMAILADDRESS%</displayName>"
        (template.thunderbirdDocument args.Domain args.ImapHost args.SmtpHost) ∧
      occursIn "<displayShortName>%EMAILLOCALPART%</displayShortName>"
        (template.thunderbirdDocument args.Domain args.ImapHost args.SmtpHost) ∧
      occursIn ("<port>993</port>\n\t\t\t<socketType>SSL</socketType>\n\t\t\t" ++
          "<authentication>password-cleartext</authentication>\n\t\t\t" ++
          "<username>%EMAILLOCALPART%</username>\n\t\t</incomingServer>")
        (template.thunderbirdDocument args.Domain args.ImapHost args.SmtpHost) ∧
      occursIn ("<port>587</port>\n\t\t\t<socketType>STARTTLS</socketType>\n\t\t\t" ++
          "<authentication>password-cleartext</authentication>\n\t\t\t" ++
          "<username>%EMAILLOCALPART%</username>\n\t    </outgoingServer>")
        (template.thunderbirdDocument args.Domain args.ImapHost args.SmtpHost) := by
  refine ⟨by decide, template.Thunderbird_eq args, ?_, ?_, ?_, ?_⟩
  · exact occursIn_thunderbirdDocument_of_textBeforeImapHost _ _ _ _ (by decide)
  · exact occursIn_thunderbirdDocument_of_textBeforeImapHost _ _ _ _ (by decide)
  · exact occursIn_thunderbirdDocument_of_textBeforeSmtpHost _ _ _ _ (by decide)
  · exact occursIn_thunderbirdDocument_of_textAtEnd _ _ _ _ (by decide)

/-- C5 as stated fails: with the domain `<` in the configuration, `Thunderbird` returns a
document that is not well-formed (the `<` stands unescaped in the attribute value of
`emailProvider` and in the content of `domain`). -/
theorem Thunderbird_not_wellFormed :
    ∃ doc, template.Thunderbird { exampleArgs with Domain := "<" } = .ok doc ∧
      xml.wellFormed doc = false :=
  ⟨_, template.Thunderbird_eq _, by decide⟩

/-- C5, amended: for every configuration whose `Domain`, `ImapHost` and `SmtpHost` are
character data (legal XML characters, no `<`, no `&`, no `]]>`) and whose `Domain` contains
no double quote, `Thunderbird` returns a document, and the document is well-formed XML. -/
theorem Thunderbird_wellFormed (args : template.Args)
    (hd : xml.isAttValueText args.Domain = true) (hd' : xml.isCharData args.Domain = true)
    (hi : xml.isCharData args.ImapHost = true) (hs : xml.isCharData args.SmtpHost = true) :
    ∃ doc, template.Thunderbird args = .ok doc ∧ xml.wellFormed doc = true :=
  ⟨_, template.Thunderbird_eq_texts args,
    xml.wellFormed_thunderbird args.Domain args.ImapHost args.SmtpHost hd hd' hi hs⟩

/-- The configuration of the example gives a well-formed document. -/
theorem Thunderbird_wellFormed_witness :
    (xml.isAttValueText exampleArgs.Domain = true ∧ xml.isCharData exampleArgs.Domain = true ∧
      xml.isCharData exampleArgs.ImapHost = true ∧
      xml.isCharData exampleArgs.SmtpHost = true) ∧
      ∃ doc, template.Thunderbird exampleArgs = .ok doc ∧ xml.wellFormed doc = true :=
  ⟨⟨by decide, by decide, by decide, by decide⟩,
    Thunderbird_wellFormed exampleArgs (by decide) (by decide) (by decide) (by decide)⟩

/-- C6: for a POST request whose body is read, decodes to `rec`, and for which the renderer
returns `reply` without error on the arguments that carry the derived local part, the
response has status 200, the header `Content-type: text/xml`, and the body `reply`; the
renderer was called once, with the configuration's arguments and `EmailLocalPart` set to the
local part derived from `rec.EMailAddress`. -/
theorem HandleOutlookConfig_success (x : Externals) (s : Server) (r : http.Request)
    (body : List UInt8) (rec : xmlRec) (a : template.Args) (reply : String)
    (hm : r.Method = "POST") (hb : r.Body = .ok body) (hx : x.xmlUnmarshal body = .ok rec)
    (hr : ∀ localPart, emailLocalPart rec.EMailAddress = some localPart →
      x.OutlookMail { s.args with EmailLocalPart := localPart } = (a, .ok reply)) :
    ∃ localPart o, emailLocalPart rec.EMailAddress = some localPart ∧
      Server.HandleOutlookConfig x s (http.ResponseWriter.new r) r = some o ∧
      o.w.response.status = 200 ∧
      o.w.response.header = [("Content-Type", ["text/xml"])] ∧
      http.Header.Get o.w.response.header "Content-type" = "text/xml" ∧
      o.w.response.body = reply ∧
      o.events = [.readAll, .xmlUnmarshal body,
        .OutlookMail { s.args with EmailLocalPart := localPart }, .bodyClose] := by
  obtain ⟨localPart, hl⟩ := emailLocalPart_isSome rec.EMailAddress
  refine ⟨localPart, _, hl,
    HandleOutlookConfig_parsed x s _ r body rec localPart hm hb hx hl, ?_⟩
  rw [hr localPart hl]
  have hh : r.Method ≠ "HEAD" := by rw [hm]; decide
  have hresp := http.response_HeaderAdd_Write_new r reply hh
  refine ⟨?_, ?_, ?_, ?_, rfl⟩
  · exact congrArg http.Response.status hresp
  · exact congrArg http.Response.header hresp
  · rw [show _ = _ from congrArg http.Response.header hresp]
    exact http.Get_Content_type
  · exact congrArg http.Response.body hresp

/-- The request of the example, with the address `bob@example.com`, gets status 200, the
header and the renderer's output for the local part `bob`. -/
theorem HandleOutlookConfig_success_witness :
    ∃ o, Server.HandleOutlookConfig exampleExternals (NewServer exampleArgs)
        (http.ResponseWriter.new { Method := "POST", Body := .ok [60, 97, 47, 62] })
        { Method := "POST", Body := .ok [60, 97, 47, 62] } = some o ∧
      o.w.response.status = 200 ∧
      http.Header.Get o.w.response.header "Content-type" = "text/xml" ∧
      o.w.response.body = "<username>bob</username>" := by
  have hb : emailLocalPart "bob@example.com" = some "bob" := by decide
  obtain ⟨localPart, o, _, ho, h1, _, h2, h3, _⟩ :=
    HandleOutlookConfig_success exampleExternals (NewServer exampleArgs)
      { Method := "POST", Body := .ok [60, 97, 47, 62] } [60, 97, 47, 62]
      ⟨"bob@example.com", "schema"⟩ { exampleArgs with EmailLocalPart := "bob" }
      "<username>bob</username>" rfl rfl rfl
      (by
        intro localPart hl
        rw [hb] at hl
        cases hl
        rfl)
  exact ⟨o, ho, h1, h2, h3⟩

/-- C7: for a POST request whose body is read but does not decode, the response has status
400 and an empty body, the handler sets no header, and the renderer is not called. -/
theorem HandleOutlookConfig_parse_error (x : Externals) (s : Server) (r : http.Request)
    (body : List UInt8) (e : String)
    (hm : r.Method = "POST") (hb : r.Body = .ok body) (hx : x.xmlUnmarshal body = .error e) :
    ∃ o, Server.HandleOutlookConfig x s (http.ResponseWriter.new r) r = some o ∧
      o.w.response = { status := 400, header := [], body := "" } ∧
      o.w.header = [] ∧ http.Header.Get o.w.response.header "Content-type" = "" ∧
      o.events = [.readAll, .xmlUnmarshal body, .bodyClose] ∧
      ∀ a, Event.OutlookMail a ∉ o.events :=
  ⟨_, HandleOutlookConfig_of_parse_error x s _ r body e hm hb hx,
    http.response_WriteHeader_new r 400, rfl,
    by rw [http.response_WriteHeader_new r http.StatusBadRequest]; rfl, rfl, by simp⟩

/-- A POST request whose body does not decode gets status 400 and an empty body. -/
theorem HandleOutlookConfig_parse_error_witness :
    ∃ o, Server.HandleOutlookConfig exampleExternals (NewServer exampleArgs)
        (http.ResponseWriter.new { Method := "POST", Body := .ok [1] })
        { Method := "POST", Body := .ok [1] } = some o ∧
      o.w.response = { status := 400, header := [], body := "" } := by
  obtain ⟨o, ho, h1, _⟩ :=
    HandleOutlookConfig_parse_error exampleExternals (NewServer exampleArgs)
      { Method := "POST", Body := .ok [1] } [1] "EOF" rfl rfl rfl
  exact ⟨o, ho, h1⟩

/-- C8: for a POST request whose body cannot be read, the response has status 500 and an
empty body, and neither the decoding nor the rendering is attempted. -/
theorem HandleOutlookConfig_read_error (x : Externals) (s : Server) (r : http.Request)
    (e : String) (hm : r.Method = "POST") (hb : r.Body = .error e) :
    ∃ o, Server.HandleOutlookConfig x s (http.ResponseWriter.new r) r = some o ∧
      o.w.response = { status := 500, header := [], body := "" } ∧
      o.events = [.readAll, .bodyClose] ∧
      (∀ b, Event.xmlUnmarshal b ∉ o.events) ∧ ∀ a, Event.OutlookMail a ∉ o.events :=
  ⟨_, HandleOutlookConfig_of_read_error x s _ r e hm hb, http.response_WriteHeader_new r 500,
    rfl, by simp, by simp⟩

/-- A POST request whose body cannot be read gets status 500 and an empty body. -/
theorem HandleOutlookConfig_read_error_witness :
    ∃ o, Server.HandleOutlookConfig exampleExternals (NewServer exampleArgs)
        (http.ResponseWriter.new { Method := "POST", Body := .error "unexpected EOF" })
        { Method := "POST", Body := .error "unexpected EOF" } = some o ∧
      o.w.response = { status := 500, header := [], body := "" } := by
  obtain ⟨o, ho, h1, _⟩ :=
    HandleOutlookConfig_read_error exampleExternals (NewServer exampleArgs)
      { Method := "POST", Body := .error "unexpected EOF" } "unexpected EOF" rfl rfl
  exact ⟨o, ho, h1⟩

/-- C9 as stated fails: for a `HEAD` request the handler writes the Thunderbird document,
and the server sends none of it, so the response has an empty body. -/
theorem HandleThunderbirdConfig_HEAD_no_body :
    ∃ doc, template.Thunderbird exampleArgs = .ok doc ∧ doc ≠ "" ∧
      (Server.HandleThunderbirdConfig (NewServer exampleArgs)
        (http.ResponseWriter.new { Method := "HEAD", Body := .ok [] })
        { Method := "HEAD", Body := .ok [] }).w.response.body = "" := by
  refine ⟨_, template.Thunderbird_eq exampleArgs, by decide, ?_⟩
  rw [(HandleThunderbirdConfig_response (NewServer exampleArgs)
    { Method := "HEAD", Body := .ok [] }).2.2.2]
  rfl

/-- C9, amended: for every `Args`, `Thunderbird` returns the Thunderbird document and no
error, so for every request, whatever its method, and every configuration,
`HandleThunderbirdConfig` does not take its 500 branch: it writes the document and sets no
header, no `Content-type` among them. The response has the default status 200; its body is
the Thunderbird document for every method but `HEAD`, for which the server sends no body;
the `Content-Type: text/xml; charset=utf-8` it carries is added by the server, which sniffs
the document. -/
theorem HandleThunderbirdConfig_ok (s : Server) (r : http.Request) :
    template.Thunderbird s.args =
        .ok (template.thunderbirdDocument s.args.Domain s.args.ImapHost s.args.SmtpHost) ∧
      (Server.HandleThunderbirdConfig s (http.ResponseWriter.new r) r).events =
        [.Thunderbird s.args] ∧
      (Server.HandleThunderbirdConfig s (http.ResponseWriter.new r) r).w.header = [] ∧
      (Server.HandleThunderbirdConfig s (http.ResponseWriter.new r) r).w.written =
        template.thunderbirdDocument s.args.Domain s.args.ImapHost s.args.SmtpHost ∧
      (Server.HandleThunderbirdConfig s (http.ResponseWriter.new r) r).w.response =
        { status := 200, header := [("Content-Type", ["text/xml; charset=utf-8"])],
          body := if r.Method = "HEAD" then ""
            else template.thunderbirdDocument s.args.Domain s.args.ImapHost s.args.SmtpHost } :=
  ⟨template.Thunderbird_eq s.args, HandleThunderbirdConfig_response s r⟩

/-- C10: handling a request with `HandleOutlookConfig` or `HandleThunderbirdConfig` leaves
the server's `Args` unchanged in all four fields, whatever the renderer does with the
arguments it is given; the arguments passed to the renderer are a copy that has the
configuration's `Domain`, `ImapHost` and `SmtpHost`; and a second request gets the response
it would get from the server as first configured, whatever the first request was. -/
theorem handlers_leave_Args_unchanged (x : Externals) (s : Server)
    (w w2 : http.ResponseWriter) (r r2 : http.Request) :
    (Server.HandleThunderbirdConfig s w r).server.args = s.args ∧
      ∃ o, Server.HandleOutlookConfig x s w r = some o ∧
        (o.server.args.Domain = s.args.Domain ∧ o.server.args.ImapHost = s.args.ImapHost ∧
          o.server.args.SmtpHost = s.args.SmtpHost ∧
          o.server.args.EmailLocalPart = s.args.EmailLocalPart) ∧
        (∀ a, Event.OutlookMail a ∈ o.events →
          a.Domain = s.args.Domain ∧ a.ImapHost = s.args.ImapHost ∧
            a.SmtpHost = s.args.SmtpHost) ∧
        Server.HandleOutlookConfig x o.server w2 r2 = Server.HandleOutlookConfig x s w2 r2 ∧
        Server.HandleThunderbirdConfig o.server w2 r2 = Server.HandleThunderbirdConfig s w2 r2 ∧
        Server.HandleOutlookConfig x (Server.HandleThunderbirdConfig s w r).server w2 r2 =
          Server.HandleOutlookConfig x s w2 r2 := by
  have ht : (Server.HandleThunderbirdConfig s w r).server = s := by
    unfold Server.HandleThunderbirdConfig
    cases template.Thunderbird s.args <;> rfl
  obtain ⟨o, ho, hs, ha⟩ := HandleOutlookConfig_server x s w r
  refine ⟨by rw [ht], o, ho, by rw [hs]; exact ⟨rfl, rfl, rfl, rfl⟩, ?_, by rw [hs], by rw [hs],
    by rw [ht]⟩
  intro a h
  have := ha a h
  rw [this]
  exact ⟨rfl, rfl, rfl⟩
